/-
  Verification of the remembered-set and slot-relocation subsystem
  (src/heap/remembered-set.h): a shallow embedding of RememberedSet and
  UpdateTypedSlotHelper, together with proofs of the specified properties.

  Machine addresses and offsets are modelled as natural numbers; a null
  pointer is the address 0.  Chunk state is passed explicitly: every
  operation takes the chunk (or the heap, a list of chunks) and returns the
  updated one.  A `DCHECK` precondition failure is modelled by the operation
  returning `none`.
-/
import Mathlib

namespace V8

/-- The verdict a policy callback returns for one slot. -/
inductive SlotCallbackResult where
  | KEEP_SLOT
  | REMOVE_SLOT
deriving DecidableEq, Repr

export SlotCallbackResult (KEEP_SLOT REMOVE_SLOT)

/-- Boolean form of the KEEP verdict, used by executable filters. -/
def SlotCallbackResult.isKeep : SlotCallbackResult → Bool
  | KEEP_SLOT => true
  | REMOVE_SLOT => false

/-- The direction a remembered set tracks. -/
inductive PointerDirection where
  | OLD_TO_OLD
  | OLD_TO_NEW
deriving DecidableEq, Repr

export PointerDirection (OLD_TO_OLD OLD_TO_NEW)

/-- Modelled from the spec: the fixed page-unit size (`Page::kPageSize`,
declared in the external spaces.h); chunks are subdivided into page units of
this size.  The concrete value is the 512 KB page size of the source tree. -/
def Page.kPageSize : ℕ := 524288

/-- The kinds of typed slots (the closed set of `SlotType`; the
`NUMBER_OF_SLOT_TYPES` sentinel is a count, not a kind, and is unreachable in
the dispatcher). -/
inductive SlotType where
  | CODE_TARGET_SLOT
  | CELL_TARGET_SLOT
  | CODE_ENTRY_SLOT
  | DEBUG_TARGET_SLOT
  | EMBEDDED_OBJECT_SLOT
  | OBJECT_SLOT
deriving DecidableEq, Repr

export SlotType (CODE_TARGET_SLOT CELL_TARGET_SLOT CODE_ENTRY_SLOT
  DEBUG_TARGET_SLOT EMBEDDED_OBJECT_SLOT OBJECT_SLOT)

/-- Modelled from the spec: one typed-slot entry, a (kind, host-offset,
slot-offset) triple as stored by the external `TypedSlotSet` of slot-set.h. -/
structure TypedSlot where
  slot_type : SlotType
  host_offset : ℕ
  slot_offset : ℕ
deriving DecidableEq, Repr

/-- Modelled from the spec: the typed-slot packing limit
(`TypedSlotSet::kMaxOffset` of the external slot-set.h); both offsets of a
typed slot must be below it. -/
def TypedSlotSet.kMaxOffset : ℕ := 536870912

/-- Modelled from the spec: one page unit's `SlotSet` is an existence-only
set of intra-page byte offsets. -/
abbrev SlotSet := Finset ℕ

/-- Modelled from the spec: a chunk's plain slot table is one `SlotSet` per
page unit (the array allocated by `AllocateOldToOldSlots` and friends). -/
abbrev SlotTable := List SlotSet

/-- Modelled from the spec: a chunk's typed slot table, an ordered,
non-deduplicated collection of typed-slot entries processed in insertion
order. -/
abbrev TypedSlotTable := List TypedSlot

/-- Modelled from the spec: the external `MemoryChunk` (spaces.h): base
address, size, and at most one plain and one typed slot table per direction
(`none` = table not allocated). -/
structure MemoryChunk where
  address : ℕ
  size : ℕ
  old_to_old_slots : Option SlotTable
  old_to_new_slots : Option SlotTable
  typed_old_to_old_slots : Option TypedSlotTable
  typed_old_to_new_slots : Option TypedSlotTable
deriving DecidableEq

/-- A `Page` is a `MemoryChunk` in the source's class hierarchy. -/
abbrev Page := MemoryChunk

/-- Modelled from the spec: the chunk containment test (`Page::Contains`). -/
def MemoryChunk.Contains (c : MemoryChunk) (addr : ℕ) : Prop :=
  c.address ≤ addr ∧ addr < c.address + c.size

instance (c : MemoryChunk) (addr : ℕ) : Decidable (c.Contains addr) :=
  inferInstanceAs (Decidable (_ ∧ _))

/-- The number of page units of a chunk (`(chunk->size() + kPageSize - 1) /
kPageSize`, as computed in `RememberedSet::Iterate`). -/
def MemoryChunk.pages (c : MemoryChunk) : ℕ :=
  (c.size + Page.kPageSize - 1) / Page.kPageSize

namespace SlotSet

/-- Modelled from the spec: `SlotSet::Insert` is an idempotent point insert. -/
def insert (offset : ℕ) (s : SlotSet) : SlotSet := Insert.insert offset s

/-- Modelled from the spec: `SlotSet::Remove` is a point remove, a no-op when
the offset is absent. -/
def remove (offset : ℕ) (s : SlotSet) : SlotSet := s.erase offset

/-- Modelled from the spec: `SlotSet::RemoveRange` removes every contained
offset in the half-open range. -/
def removeRange (start_offset end_offset : ℕ) (s : SlotSet) : SlotSet :=
  s.filter (fun o => ¬(start_offset ≤ o ∧ o < end_offset))

/-- Modelled from the spec: `SlotSet::Iterate` visits every present offset,
invokes the policy on the slot's address, clears the entries with a REMOVE
verdict, and returns the set of retained offsets with their count. -/
def iterate (page_start : ℕ) (policy : ℕ → SlotCallbackResult) (s : SlotSet) :
    SlotSet × ℕ :=
  let kept := s.filter (fun o => policy (page_start + o) = KEEP_SLOT)
  (kept, kept.card)

end SlotSet

namespace TypedSlotSet

/-- Modelled from the spec: `TypedSlotSet::Iterate` invokes the policy on
(kind, host address, slot address) per entry in insertion order, drops the
entries with a REMOVE verdict, and returns the kept entries with their
count. -/
def iterate (base : ℕ) (policy : SlotType → ℕ → ℕ → SlotCallbackResult)
    (l : TypedSlotTable) : TypedSlotTable × ℕ :=
  let kept := l.filter (fun t =>
    (policy t.slot_type (base + t.host_offset) (base + t.slot_offset)).isKeep)
  (kept, kept.length)

end TypedSlotSet

/-- Replace bucket `i` of a slot table by `f` of its current contents (the
in-place mutation `slot_set[i].Op(...)`; an absent bucket reads as empty). -/
def updateBucket (table : SlotTable) (i : ℕ) (f : SlotSet → SlotSet) :
    SlotTable :=
  table.set i (f (table.getD i ∅))

/-- Whether a slot table records the chunk-relative offset `o` (bucket
`o / kPageSize`, bit `o % kPageSize`). -/
def slotTableContains (table : SlotTable) (o : ℕ) : Prop :=
  o % Page.kPageSize ∈ table.getD (o / Page.kPageSize) ∅

instance (table : SlotTable) (o : ℕ) : Decidable (slotTableContains table o) :=
  inferInstanceAs (Decidable (_ ∈ _))

namespace RememberedSet

/-- Source `RememberedSet::GetSlotSet`: the chunk's plain slot table for the
direction. -/
def getSlotSet (dir : PointerDirection) (c : MemoryChunk) : Option SlotTable :=
  match dir with
  | OLD_TO_OLD => c.old_to_old_slots
  | OLD_TO_NEW => c.old_to_new_slots

/-- Source `RememberedSet::GetTypedSlotSet`: the chunk's typed slot table for the
direction. -/
def getTypedSlotSet (dir : PointerDirection) (c : MemoryChunk) :
    Option TypedSlotTable :=
  match dir with
  | OLD_TO_OLD => c.typed_old_to_old_slots
  | OLD_TO_NEW => c.typed_old_to_new_slots

/-- Store a plain slot table (or `none`, for release) in the chunk field
selected by the direction; covers `ReleaseSlotSet` and the write half of
`AllocateSlotSet`. -/
def setSlotSet (dir : PointerDirection) (c : MemoryChunk)
    (v : Option SlotTable) : MemoryChunk :=
  match dir with
  | OLD_TO_OLD => { c with old_to_old_slots := v }
  | OLD_TO_NEW => { c with old_to_new_slots := v }

/-- Store a typed slot table in the chunk field selected by the direction;
covers `ReleaseTypedSlotSet` and the write half of `AllocateTypedSlotSet`. -/
def setTypedSlotSet (dir : PointerDirection) (c : MemoryChunk)
    (v : Option TypedSlotTable) : MemoryChunk :=
  match dir with
  | OLD_TO_OLD => { c with typed_old_to_old_slots := v }
  | OLD_TO_NEW => { c with typed_old_to_new_slots := v }

/-- Source `RememberedSet::ReleaseSlotSet`. -/
def releaseSlotSet (dir : PointerDirection) (c : MemoryChunk) : MemoryChunk :=
  setSlotSet dir c none

/-- Source `RememberedSet::ReleaseTypedSlotSet`. -/
def releaseTypedSlotSet (dir : PointerDirection) (c : MemoryChunk) :
    MemoryChunk :=
  setTypedSlotSet dir c none

/-- Source `RememberedSet::AllocateSlotSet`; modelled from the spec, the external
allocation creates one empty `SlotSet` per page unit of the chunk. -/
def allocateSlotSet (dir : PointerDirection) (c : MemoryChunk) : MemoryChunk :=
  setSlotSet dir c (some (List.replicate c.pages ∅))

/-- Source `RememberedSet::AllocateTypedSlotSet`; modelled from the spec, the
external allocation creates an empty typed-slot collection. -/
def allocateTypedSlotSet (dir : PointerDirection) (c : MemoryChunk) :
    MemoryChunk :=
  setTypedSlotSet dir c (some [])

/-- Source `RememberedSet::Insert`: adds the slot to the remembered set, lazily
allocating the table.  `none` models the `DCHECK(page->Contains(slot_addr))`
failure. -/
def Insert (dir : PointerDirection) (page : Page) (slot_addr : ℕ) :
    Option MemoryChunk :=
  if page.Contains slot_addr then
    let page1 := if (getSlotSet dir page).isSome then page
                 else allocateSlotSet dir page
    let table := (getSlotSet dir page1).getD []
    let offset := slot_addr - page.address
    some (setSlotSet dir page1 (some (updateBucket table
      (offset / Page.kPageSize) (SlotSet.insert (offset % Page.kPageSize)))))
  else none

/-- Source `RememberedSet::Remove`: removes the slot if present; does nothing when
the table is absent or the slot was never added.  `none` models the
`DCHECK(page->Contains(slot_addr))` failure. -/
def Remove (dir : PointerDirection) (page : Page) (slot_addr : ℕ) :
    Option MemoryChunk :=
  if page.Contains slot_addr then
    match getSlotSet dir page with
    | none => some page
    | some table =>
      let offset := slot_addr - page.address
      some (setSlotSet dir page (some (updateBucket table
        (offset / Page.kPageSize) (SlotSet.remove (offset % Page.kPageSize)))))
  else none

/-- Source `RememberedSet::RemoveRange`: removes the slots of the half-open address
range from the remembered set; a no-op when the table is absent.  `none`
models the failure of `DCHECK_LT(start_offset, end_offset)` or
`DCHECK_LE(end_offset, Page::kPageSize)`.  The removal is applied to
`slot_set[0]`, the first page unit's set, as in the source
(`slot_set->RemoveRange(...)`). -/
def RemoveRange (dir : PointerDirection) (page : Page) (start end_ : ℕ) :
    Option MemoryChunk :=
  match getSlotSet dir page with
  | none => some page
  | some table =>
    let start_offset := start - page.address
    let end_offset := end_ - page.address
    if start_offset < end_offset ∧ end_offset ≤ Page.kPageSize then
      some (setSlotSet dir page (some (updateBucket table 0
        (SlotSet.removeRange start_offset end_offset))))
    else none

/-- Source `RememberedSet::Iterate` (per chunk): iterates every page unit's slot
set, sums the retained counts, and releases the table when the total is
zero. -/
def Iterate (dir : PointerDirection) (policy : ℕ → SlotCallbackResult)
    (chunk : MemoryChunk) : MemoryChunk :=
  match getSlotSet dir chunk with
  | none => chunk
  | some table =>
    if ((List.range chunk.pages).map (fun p =>
        (SlotSet.iterate (chunk.address + p * Page.kPageSize) policy
          (table.getD p ∅)).2)).sum = 0 then
      setSlotSet dir chunk none
    else
      setSlotSet dir chunk (some ((List.range chunk.pages).map (fun p =>
        (SlotSet.iterate (chunk.address + p * Page.kPageSize) policy
          (table.getD p ∅)).1)))

/-- Source `RememberedSet::InsertTyped`: records a typed slot, lazily allocating
the typed table; a null host address is replaced by the page base, so a host
equal to the base is recorded as host-offset 0.  `none` models the failure
of the two `DCHECK_LT(..., TypedSlotSet::kMaxOffset)` packing-limit
checks. -/
def InsertTyped (dir : PointerDirection) (page : Page) (host_addr : ℕ)
    (slot_type : SlotType) (slot_addr : ℕ) : Option MemoryChunk :=
  let table := (getTypedSlotSet dir page).getD []
  let host := if host_addr = 0 then page.address else host_addr
  let offset := slot_addr - page.address
  let host_offset := host - page.address
  if offset < TypedSlotSet.kMaxOffset ∧
      host_offset < TypedSlotSet.kMaxOffset then
    some (setTypedSlotSet dir page
      (some (table ++ [⟨slot_type, host_offset, offset⟩])))
  else none

/-- Source `RememberedSet::RemoveRangeTyped`: iterates the typed table with a
policy that returns REMOVE exactly for slot addresses in `[start, end)`;
the retained count of the iteration is discarded and the table stays
attached. -/
def RemoveRangeTyped (dir : PointerDirection) (page : Page)
    (start end_ : ℕ) : MemoryChunk :=
  match getTypedSlotSet dir page with
  | none => page
  | some table =>
    setTypedSlotSet dir page (some (TypedSlotSet.iterate page.address
      (fun _ _ slot_addr =>
        if start ≤ slot_addr ∧ slot_addr < end_ then REMOVE_SLOT
        else KEEP_SLOT) table).1)

/-- Source `RememberedSet::IterateTyped` (per chunk): iterates the typed table and
releases it when the retained count is zero. -/
def IterateTyped (dir : PointerDirection)
    (policy : SlotType → ℕ → ℕ → SlotCallbackResult) (chunk : MemoryChunk) :
    MemoryChunk :=
  match getTypedSlotSet dir chunk with
  | none => chunk
  | some table =>
    if (TypedSlotSet.iterate chunk.address policy table).2 = 0 then
      setTypedSlotSet dir chunk none
    else
      setTypedSlotSet dir chunk
        (some (TypedSlotSet.iterate chunk.address policy table).1)

/-- The test of `RememberedSet::IterateMemoryChunks`: the chunk holds a
non-null plain or typed slot table for the direction. -/
def hasRememberedSlots (dir : PointerDirection) (c : MemoryChunk) : Bool :=
  (getSlotSet dir c).isSome || (getTypedSlotSet dir c).isSome

/-- Source `RememberedSet::IterateMemoryChunks`: applies the per-chunk callback to
exactly the chunks whose plain or typed slot table is non-null; the other
chunks are not visited. -/
def IterateMemoryChunks (dir : PointerDirection)
    (callback : MemoryChunk → MemoryChunk) (heap : List MemoryChunk) :
    List MemoryChunk :=
  heap.map (fun c => if hasRememberedSlots dir c then callback c else c)

/-- The chunks `IterateMemoryChunks` passes to its callback, in heap order. -/
def visitedChunks (dir : PointerDirection) (heap : List MemoryChunk) :
    List MemoryChunk :=
  heap.filter (hasRememberedSlots dir)

/-- Source `RememberedSet::Iterate` (heap-wide): per-chunk iteration over every
chunk visited by `IterateMemoryChunks`. -/
def IterateHeap (dir : PointerDirection) (policy : ℕ → SlotCallbackResult)
    (heap : List MemoryChunk) : List MemoryChunk :=
  IterateMemoryChunks dir (Iterate dir policy) heap

/-- Source `RememberedSet::IterateTyped` (heap-wide). -/
def IterateTypedHeap (dir : PointerDirection)
    (policy : SlotType → ℕ → ℕ → SlotCallbackResult)
    (heap : List MemoryChunk) : List MemoryChunk :=
  IterateMemoryChunks dir (IterateTyped dir policy) heap

/-- Source `RememberedSet::ClearAll`: releases the old-to-old plain and typed slot
tables on every chunk.  The `STATIC_ASSERT(direction == OLD_TO_OLD)` is
modelled as the `none` result for the old-to-new direction (the operation is
unavailable there). -/
def ClearAll (dir : PointerDirection) (heap : List MemoryChunk) :
    Option (List MemoryChunk) :=
  if dir = OLD_TO_OLD then
    some (heap.map (fun c =>
      { c with old_to_old_slots := none, typed_old_to_old_slots := none }))
  else none

/-- The chunk with the two tables of the OPPOSITE direction replaced; used
to express that an operation of one direction neither reads nor writes the
other direction's tables. -/
def withOppositeTables (dir : PointerDirection) (c : MemoryChunk)
    (v : Option SlotTable) (w : Option TypedSlotTable) : MemoryChunk :=
  match dir with
  | OLD_TO_OLD =>
    { c with old_to_new_slots := v, typed_old_to_new_slots := w }
  | OLD_TO_NEW =>
    { c with old_to_old_slots := v, typed_old_to_old_slots := w }

end RememberedSet

/-- Modelled from the spec: the observable state of one relocatable
instruction sequence (the external `RelocInfo` / code-entry memory word of
assembler.h) under the abstract decode/encode contract: `target` is the
decoded embedded reference, `patched` is the debug-break-sequence predicate
(`IsPatchedDebugBreakSlotSequence`), and `writes` counts the encode
(write-back) operations performed on the sequence. -/
structure RelocInfo where
  target : ℕ
  patched : Bool
  writes : ℕ
deriving DecidableEq, Repr

/-- The untyped slot callback: receives the current reference through a
pointer, may redirect it (first component), and returns a verdict (second
component). -/
abbrev ObjCallback := ℕ → ℕ × SlotCallbackResult

namespace UpdateTypedSlotHelper

/-- Source `UpdateTypedSlotHelper::UpdateCell`: decode the cell reference, invoke
the callback, and re-encode only when the callback changed it. -/
def UpdateCell (rinfo : RelocInfo) (callback : ObjCallback) :
    SlotCallbackResult × RelocInfo :=
  let old_cell := rinfo.target
  let r := callback old_cell
  if r.1 ≠ old_cell then
    (r.2, { rinfo with target := r.1, writes := rinfo.writes + 1 })
  else (r.2, rinfo)

/-- Source `UpdateTypedSlotHelper::UpdateCodeEntry`: decode the code object from
the entry address, invoke the callback, and rewrite the entry word only when
the callback changed the object. -/
def UpdateCodeEntry (rinfo : RelocInfo) (callback : ObjCallback) :
    SlotCallbackResult × RelocInfo :=
  let old_code := rinfo.target
  let r := callback old_code
  if r.1 ≠ old_code then
    (r.2, { rinfo with target := r.1, writes := rinfo.writes + 1 })
  else (r.2, rinfo)

/-- Source `UpdateTypedSlotHelper::UpdateCodeTarget`: decode the target code
object, invoke the callback, and re-encode the branch target only when the
callback changed it. -/
def UpdateCodeTarget (rinfo : RelocInfo) (callback : ObjCallback) :
    SlotCallbackResult × RelocInfo :=
  let old_target := rinfo.target
  let r := callback old_target
  if r.1 ≠ old_target then
    (r.2, { rinfo with target := r.1, writes := rinfo.writes + 1 })
  else (r.2, rinfo)

/-- Source `UpdateTypedSlotHelper::UpdateEmbeddedPointer`: decode the embedded
object, invoke the callback, and re-encode only when the callback changed
it. -/
def UpdateEmbeddedPointer (rinfo : RelocInfo) (callback : ObjCallback) :
    SlotCallbackResult × RelocInfo :=
  let old_target := rinfo.target
  let r := callback old_target
  if r.1 ≠ old_target then
    (r.2, { rinfo with target := r.1, writes := rinfo.writes + 1 })
  else (r.2, rinfo)

/-- Source `UpdateTypedSlotHelper::UpdateDebugTarget`: decode the debug call
target, invoke the callback, and re-encode unconditionally (the dispatcher
only calls this on a patched sequence). -/
def UpdateDebugTarget (rinfo : RelocInfo) (callback : ObjCallback) :
    SlotCallbackResult × RelocInfo :=
  let r := callback rinfo.target
  (r.2, { rinfo with target := r.1, writes := rinfo.writes + 1 })

/-- Source `UpdateTypedSlotHelper::UpdateTypedSlot`: kind dispatch.  For the
debug-breakpoint kind the patched-state predicate is tested first and an
unpatched sequence yields REMOVE_SLOT with no callback invocation and no
write; for the plain-object kind the callback acts directly on the raw
location (any store is the callback's own, not an encode of this helper). -/
def UpdateTypedSlot (slot_type : SlotType) (rinfo : RelocInfo)
    (callback : ObjCallback) : SlotCallbackResult × RelocInfo :=
  match slot_type with
  | CODE_TARGET_SLOT => UpdateCodeTarget rinfo callback
  | CELL_TARGET_SLOT => UpdateCell rinfo callback
  | CODE_ENTRY_SLOT => UpdateCodeEntry rinfo callback
  | DEBUG_TARGET_SLOT =>
    if rinfo.patched then UpdateDebugTarget rinfo callback
    else (REMOVE_SLOT, rinfo)
  | EMBEDDED_OBJECT_SLOT => UpdateEmbeddedPointer rinfo callback
  | OBJECT_SLOT =>
    let r := callback rinfo.target
    (r.2, { rinfo with target := r.1 })

end UpdateTypedSlotHelper

/-! ## General lemmas about the embedding -/

theorem getSlotSet_setSlotSet (dir : PointerDirection) (c : MemoryChunk)
    (v : Option SlotTable) :
    RememberedSet.getSlotSet dir (RememberedSet.setSlotSet dir c v) = v := by
  cases dir <;> rfl

theorem getTypedSlotSet_setTypedSlotSet (dir : PointerDirection)
    (c : MemoryChunk) (v : Option TypedSlotTable) :
    RememberedSet.getTypedSlotSet dir (RememberedSet.setTypedSlotSet dir c v) =
      v := by
  cases dir <;> rfl

theorem setSlotSet_self (dir : PointerDirection) (c : MemoryChunk) :
    RememberedSet.setSlotSet dir c (RememberedSet.getSlotSet dir c) = c := by
  cases dir <;> rfl

theorem list_set_getD {α : Type} (l : List α) (i : ℕ) (d : α) :
    l.set i (l.getD i d) = l := by
  induction l generalizing i with
  | nil => rfl
  | cons a l ih =>
    cases i with
    | zero => simp [List.getD]
    | succ n => simp [List.getD] at ih ⊢; exact ih n

theorem map_getD_range {α : Type} (l : List α) (d : α) :
    (List.range l.length).map (fun i => l.getD i d) = l := by
  induction l with
  | nil => rfl
  | cons a l ih =>
    rw [List.length_cons, List.range_succ_eq_map, List.map_cons, List.map_map]
    simp only [List.getD_cons_zero, Function.comp_def, List.getD_cons_succ]
    rw [ih]

/-! ## Claims -/

/-- Claim C2: for the code-target, indirection-cell, code-entry-point and
embedded-object kinds, `UpdateTypedSlotHelper::UpdateTypedSlot` writes the
encoded reference back only when the callback returns a pointer different
from the decoded one, leaving the instruction sequence untouched otherwise;
for the debug-breakpoint kind on a patched sequence the reference is
re-encoded unconditionally, even when the callback leaves it unchanged. -/
theorem updateTypedSlot_writeback_asymmetry (r : RelocInfo)
    (cb : ObjCallback) :
    (∀ t : SlotType,
      t = CODE_TARGET_SLOT ∨ t = CELL_TARGET_SLOT ∨ t = CODE_ENTRY_SLOT ∨
        t = EMBEDDED_OBJECT_SLOT →
      ((cb r.target).1 = r.target →
        (UpdateTypedSlotHelper.UpdateTypedSlot t r cb).2 = r) ∧
      ((cb r.target).1 ≠ r.target →
        (UpdateTypedSlotHelper.UpdateTypedSlot t r cb).2 =
          { r with target := (cb r.target).1, writes := r.writes + 1 })) ∧
    (r.patched = true →
      (UpdateTypedSlotHelper.UpdateTypedSlot DEBUG_TARGET_SLOT r cb).2 =
        { r with target := (cb r.target).1, writes := r.writes + 1 }) := by
  constructor
  · intro t ht
    rcases ht with rfl | rfl | rfl | rfl <;>
      exact ⟨fun h => by
          simp [UpdateTypedSlotHelper.UpdateTypedSlot,
            UpdateTypedSlotHelper.UpdateCodeTarget,
            UpdateTypedSlotHelper.UpdateCell,
            UpdateTypedSlotHelper.UpdateCodeEntry,
            UpdateTypedSlotHelper.UpdateEmbeddedPointer, h],
        fun h => by
          simp [UpdateTypedSlotHelper.UpdateTypedSlot,
            UpdateTypedSlotHelper.UpdateCodeTarget,
            UpdateTypedSlotHelper.UpdateCell,
            UpdateTypedSlotHelper.UpdateCodeEntry,
            UpdateTypedSlotHelper.UpdateEmbeddedPointer, h]⟩
  · intro hp
    simp [UpdateTypedSlotHelper.UpdateTypedSlot,
      UpdateTypedSlotHelper.UpdateDebugTarget, hp]

/-- Witness for claim C2 at concrete inputs: an unchanged code target is not
re-encoded, a changed cell target is, and an unchanged debug target on a
patched sequence is re-encoded anyway. -/
theorem updateTypedSlot_writeback_asymmetry_witness :
    (UpdateTypedSlotHelper.UpdateTypedSlot CODE_TARGET_SLOT ⟨5, true, 0⟩
        (fun o => (o, KEEP_SLOT))).2 = ⟨5, true, 0⟩ ∧
    (UpdateTypedSlotHelper.UpdateTypedSlot CELL_TARGET_SLOT ⟨5, true, 0⟩
        (fun o => (o + 1, KEEP_SLOT))).2 = ⟨6, true, 1⟩ ∧
    (UpdateTypedSlotHelper.UpdateTypedSlot DEBUG_TARGET_SLOT ⟨5, true, 0⟩
        (fun o => (o, KEEP_SLOT))).2 = ⟨5, true, 1⟩ := by
  refine ⟨?_, ?_, ?_⟩
  · exact ((updateTypedSlot_writeback_asymmetry ⟨5, true, 0⟩
      (fun o => (o, KEEP_SLOT))).1 CODE_TARGET_SLOT (Or.inl rfl)).1 rfl
  · exact ((updateTypedSlot_writeback_asymmetry ⟨5, true, 0⟩
      (fun o => (o + 1, KEEP_SLOT))).1 CELL_TARGET_SLOT
      (Or.inr (Or.inl rfl))).2 (by decide)
  · exact (updateTypedSlot_writeback_asymmetry ⟨5, true, 0⟩
      (fun o => (o, KEEP_SLOT))).2 rfl

/-- Claim C3: for the debug-breakpoint kind, when the instruction sequence
is not in the patched state `UpdateTypedSlot` returns REMOVE_SLOT at once,
leaves the slot untouched, and never invokes the policy callback (the result
does not depend on the callback at all). -/
theorem updateTypedSlot_debug_unpatched (r : RelocInfo) (cb : ObjCallback)
    (h : r.patched = false) :
    UpdateTypedSlotHelper.UpdateTypedSlot DEBUG_TARGET_SLOT r cb =
      (REMOVE_SLOT, r) ∧
    ∀ cb2 : ObjCallback,
      UpdateTypedSlotHelper.UpdateTypedSlot DEBUG_TARGET_SLOT r cb =
        UpdateTypedSlotHelper.UpdateTypedSlot DEBUG_TARGET_SLOT r cb2 := by
  constructor
  · simp [UpdateTypedSlotHelper.UpdateTypedSlot, h]
  · intro cb2
    simp [UpdateTypedSlotHelper.UpdateTypedSlot, h]

/-- Witness for claim C3 at a concrete unpatched sequence. -/
theorem updateTypedSlot_debug_unpatched_witness :
    UpdateTypedSlotHelper.UpdateTypedSlot DEBUG_TARGET_SLOT ⟨7, false, 0⟩
      (fun o => (o + 1, KEEP_SLOT)) = (REMOVE_SLOT, ⟨7, false, 0⟩) :=
  (updateTypedSlot_debug_unpatched ⟨7, false, 0⟩
    (fun o => (o + 1, KEEP_SLOT)) rfl).1

/-- Claim C5: `RememberedSet::ClearAll` is unavailable for the old-to-new
direction, and for the old-to-old direction it unconditionally releases both
the plain and the typed old-to-old slot table on every chunk of the heap,
leaving everything else untouched. -/
theorem clearAll_direction_and_release (heap : List MemoryChunk) :
    RememberedSet.ClearAll OLD_TO_NEW heap = none ∧
    ∃ heap2, RememberedSet.ClearAll OLD_TO_OLD heap = some heap2 ∧
      List.Forall₂ (fun c c2 =>
        c2.old_to_old_slots = none ∧ c2.typed_old_to_old_slots = none ∧
        c2.old_to_new_slots = c.old_to_new_slots ∧
        c2.typed_old_to_new_slots = c.typed_old_to_new_slots ∧
        c2.address = c.address ∧ c2.size = c.size) heap heap2 := by
  refine ⟨by simp [RememberedSet.ClearAll],
    ⟨heap.map (fun c =>
      { c with old_to_old_slots := none, typed_old_to_old_slots := none }),
      by simp [RememberedSet.ClearAll], ?_⟩⟩
  rw [List.forall₂_map_right_iff]
  exact List.forall₂_same.2 (fun c _ => ⟨rfl, rfl, rfl, rfl, rfl, rfl⟩)

/-- Claim C6: with no table allocated, `Remove`, `RemoveRange` and
`RemoveRangeTyped` are no-ops that allocate nothing and leave the chunk
unchanged; `Remove` of a slot that was never inserted is likewise a
no-op. -/
theorem remove_absent_noop (dir : PointerDirection) (page : Page)
    (a s e : ℕ) :
    (RememberedSet.getSlotSet dir page = none → page.Contains a →
      RememberedSet.Remove dir page a = some page) ∧
    (RememberedSet.getSlotSet dir page = none →
      RememberedSet.RemoveRange dir page s e = some page) ∧
    (RememberedSet.getTypedSlotSet dir page = none →
      RememberedSet.RemoveRangeTyped dir page s e = page) ∧
    (∀ table, RememberedSet.getSlotSet dir page = some table →
      page.Contains a → ¬ slotTableContains table (a - page.address) →
      RememberedSet.Remove dir page a = some page) := by
  refine ⟨?_, ?_, ?_, ?_⟩
  · intro h hc
    unfold RememberedSet.Remove
    rw [if_pos hc, h]
  · intro h
    unfold RememberedSet.RemoveRange
    rw [h]
  · intro h
    unfold RememberedSet.RemoveRangeTyped
    rw [h]
  · intro table h hc hnot
    unfold slotTableContains at hnot
    have e1 : updateBucket table ((a - page.address) / Page.kPageSize)
        (SlotSet.remove ((a - page.address) % Page.kPageSize)) = table := by
      unfold updateBucket SlotSet.remove
      rw [Finset.erase_eq_of_not_mem hnot, list_set_getD]
    unfold RememberedSet.Remove
    rw [if_pos hc, h]
    simp only [e1]
    rw [← h, setSlotSet_self]

/-- Witness for claim C6 at concrete chunks: removals on a chunk with no
tables return it unchanged, and removing a never-inserted offset from an
allocated table returns the chunk unchanged. -/
theorem remove_absent_noop_witness :
    RememberedSet.Remove OLD_TO_OLD
      ⟨0, 524288, none, none, none, none⟩ 5 =
      some ⟨0, 524288, none, none, none, none⟩ ∧
    RememberedSet.RemoveRange OLD_TO_OLD
      ⟨0, 524288, none, none, none, none⟩ 3 9 =
      some ⟨0, 524288, none, none, none, none⟩ ∧
    RememberedSet.RemoveRangeTyped OLD_TO_OLD
      ⟨0, 524288, none, none, none, none⟩ 3 9 =
      ⟨0, 524288, none, none, none, none⟩ ∧
    RememberedSet.Remove OLD_TO_NEW
      ⟨0, 524288, none, some [{3}], none, none⟩ 5 =
      some ⟨0, 524288, none, some [{3}], none, none⟩ := by
  refine ⟨?_, ?_, ?_, ?_⟩
  · exact (remove_absent_noop OLD_TO_OLD
      ⟨0, 524288, none, none, none, none⟩ 5 3 9).1 rfl (by constructor <;> decide)
  · exact (remove_absent_noop OLD_TO_OLD
      ⟨0, 524288, none, none, none, none⟩ 5 3 9).2.1 rfl
  · exact (remove_absent_noop OLD_TO_OLD
      ⟨0, 524288, none, none, none, none⟩ 5 3 9).2.2.1 rfl
  · exact (remove_absent_noop OLD_TO_NEW
      ⟨0, 524288, none, some [{3}], none, none⟩ 5 3 9).2.2.2 [{3}] rfl
      (by constructor <;> decide) (by decide)

/-- Claim C8: for every call to `InsertTyped`, a host address equal to the
chunk base is recorded as host-offset 0 and a null host address is treated
as the base; for a non-null host, the entry (kind, host - base, slot - base)
is appended when both recorded offsets are below the packing limit, and a
slot offset or a host offset at or above the limit is a precondition
violation (no matter the other argument); every successful call leaves the
typed table allocated (lazy allocation). -/
theorem insertTyped_host_base_and_limit (dir : PointerDirection)
    (page : Page) (host_addr : ℕ) (t : SlotType) (slot_addr : ℕ) :
    (slot_addr - page.address < TypedSlotSet.kMaxOffset →
      RememberedSet.InsertTyped dir page page.address t slot_addr =
        some (RememberedSet.setTypedSlotSet dir page
          (some ((RememberedSet.getTypedSlotSet dir page).getD [] ++
            [⟨t, 0, slot_addr - page.address⟩])))) ∧
    (RememberedSet.InsertTyped dir page 0 t slot_addr =
      RememberedSet.InsertTyped dir page page.address t slot_addr) ∧
    (host_addr ≠ 0 →
      slot_addr - page.address < TypedSlotSet.kMaxOffset →
      host_addr - page.address < TypedSlotSet.kMaxOffset →
      RememberedSet.InsertTyped dir page host_addr t slot_addr =
        some (RememberedSet.setTypedSlotSet dir page
          (some ((RememberedSet.getTypedSlotSet dir page).getD [] ++
            [⟨t, host_addr - page.address, slot_addr - page.address⟩])))) ∧
    (TypedSlotSet.kMaxOffset ≤ slot_addr - page.address →
      RememberedSet.InsertTyped dir page host_addr t slot_addr = none) ∧
    (host_addr ≠ 0 →
      TypedSlotSet.kMaxOffset ≤ host_addr - page.address →
      RememberedSet.InsertTyped dir page host_addr t slot_addr = none) ∧
    (∀ c2, RememberedSet.InsertTyped dir page host_addr t slot_addr =
        some c2 →
      (RememberedSet.getTypedSlotSet dir c2).isSome = true) := by
  refine ⟨?_, ?_, ?_, ?_, ?_, ?_⟩
  · intro h
    simp only [RememberedSet.InsertTyped, ite_self, Nat.sub_self]
    rw [if_pos ⟨h, by norm_num [TypedSlotSet.kMaxOffset]⟩]
  · simp [RememberedSet.InsertTyped, ite_self]
  · intro hne h1 h2
    simp only [RememberedSet.InsertTyped]
    rw [if_neg hne]
    rw [if_pos ⟨h1, h2⟩]
  · intro h
    simp only [RememberedSet.InsertTyped]
    rw [if_neg]
    rintro ⟨h1, _⟩
    exact absurd h1 (not_lt.2 h)
  · intro hne h
    simp only [RememberedSet.InsertTyped]
    rw [if_neg hne]
    rw [if_neg]
    rintro ⟨_, h2⟩
    exact absurd h2 (not_lt.2 h)
  · intro c2 h2
    simp only [RememberedSet.InsertTyped] at h2
    split_ifs at h2 <;>
      first
        | (injection h2 with h3
           rw [← h3, getTypedSlotSet_setTypedSlotSet]
           rfl)
        | simp at h2

/-- Witness for claim C8 at a concrete chunk: host equal to the base
records (kind, 0, 10); a distinct non-null host records (kind, 500, 10)
with the typed table left allocated; a slot offset at the packing limit is
rejected, and so is a host offset at the packing limit. -/
theorem insertTyped_host_base_and_limit_witness :
    RememberedSet.InsertTyped OLD_TO_NEW
      ⟨1000, 524288, none, none, none, none⟩ 1000 CODE_TARGET_SLOT 1010 =
      some ⟨1000, 524288, none, none, none,
        some [⟨CODE_TARGET_SLOT, 0, 10⟩]⟩ ∧
    RememberedSet.InsertTyped OLD_TO_NEW
      ⟨1000, 524288, none, none, none, none⟩ 1500 CODE_TARGET_SLOT 1010 =
      some ⟨1000, 524288, none, none, none,
        some [⟨CODE_TARGET_SLOT, 500, 10⟩]⟩ ∧
    RememberedSet.InsertTyped OLD_TO_NEW
      ⟨1000, 524288, none, none, none, none⟩ 1500 CODE_TARGET_SLOT
      536871912 = none ∧
    RememberedSet.InsertTyped OLD_TO_NEW
      ⟨1000, 524288, none, none, none, none⟩ 536871912 CODE_TARGET_SLOT
      1010 = none ∧
    (RememberedSet.getTypedSlotSet OLD_TO_NEW
      (⟨1000, 524288, none, none, none,
        some [⟨CODE_TARGET_SLOT, 500, 10⟩]⟩ : MemoryChunk)).isSome =
      true := by
  refine ⟨?_, ?_, ?_, ?_, ?_⟩
  · exact (insertTyped_host_base_and_limit OLD_TO_NEW
      ⟨1000, 524288, none, none, none, none⟩ 1500 CODE_TARGET_SLOT
      1010).1 (by decide)
  · exact (insertTyped_host_base_and_limit OLD_TO_NEW
      ⟨1000, 524288, none, none, none, none⟩ 1500 CODE_TARGET_SLOT
      1010).2.2.1 (by decide) (by decide) (by decide)
  · exact (insertTyped_host_base_and_limit OLD_TO_NEW
      ⟨1000, 524288, none, none, none, none⟩ 1500 CODE_TARGET_SLOT
      536871912).2.2.2.1 (by decide)
  · exact (insertTyped_host_base_and_limit OLD_TO_NEW
      ⟨1000, 524288, none, none, none, none⟩ 536871912 CODE_TARGET_SLOT
      1010).2.2.2.2.1 (by decide) (by decide)
  · exact (insertTyped_host_base_and_limit OLD_TO_NEW
      ⟨1000, 524288, none, none, none, none⟩ 1500 CODE_TARGET_SLOT
      1010).2.2.2.2.2
      ⟨1000, 524288, none, none, none, some [⟨CODE_TARGET_SLOT, 500, 10⟩]⟩
      ((insertTyped_host_base_and_limit OLD_TO_NEW
        ⟨1000, 524288, none, none, none, none⟩ 1500 CODE_TARGET_SLOT
        1010).2.2.1 (by decide) (by decide) (by decide))

/-- Claim C10: `RemoveRangeTyped` discards the retained count of its
internal typed iteration: the typed table stays attached even when the
removal drops every remaining entry; it holds exactly the entries whose
slot address is outside `[start, end)`, and a later `IterateTyped` on the
drained table is what releases it. -/
theorem removeRangeTyped_keeps_table (dir : PointerDirection)
    (chunk : MemoryChunk) (s e : ℕ) (l : TypedSlotTable)
    (h : RememberedSet.getTypedSlotSet dir chunk = some l) :
    ((RememberedSet.getTypedSlotSet dir
        (RememberedSet.RemoveRangeTyped dir chunk s e)).isSome = true) ∧
    (RememberedSet.getTypedSlotSet dir
        (RememberedSet.RemoveRangeTyped dir chunk s e) =
      some (l.filter (fun t =>
        (if s ≤ chunk.address + t.slot_offset ∧
            chunk.address + t.slot_offset < e then REMOVE_SLOT
          else KEEP_SLOT).isKeep))) ∧
    ((∀ t ∈ l, s ≤ chunk.address + t.slot_offset ∧
        chunk.address + t.slot_offset < e) →
      RememberedSet.getTypedSlotSet dir
        (RememberedSet.RemoveRangeTyped dir chunk s e) = some []) ∧
    (∀ tp, RememberedSet.getTypedSlotSet dir
        (RememberedSet.IterateTyped dir tp
          (RememberedSet.setTypedSlotSet dir chunk (some []))) = none) := by
  have heq : RememberedSet.getTypedSlotSet dir
      (RememberedSet.RemoveRangeTyped dir chunk s e) =
      some (l.filter (fun t =>
        (if s ≤ chunk.address + t.slot_offset ∧
            chunk.address + t.slot_offset < e then REMOVE_SLOT
          else KEEP_SLOT).isKeep)) := by
    unfold RememberedSet.RemoveRangeTyped
    rw [h]
    rw [getTypedSlotSet_setTypedSlotSet]
    rfl
  refine ⟨by rw [heq]; rfl, heq, ?_, ?_⟩
  · intro hall
    rw [heq]
    congr 1
    rw [List.filter_eq_nil_iff]
    intro t ht
    rw [if_pos (hall t ht)]
    exact Bool.false_ne_true
  · intro tp
    unfold RememberedSet.IterateTyped
    rw [getTypedSlotSet_setTypedSlotSet]
    simp [TypedSlotSet.iterate, getTypedSlotSet_setTypedSlotSet]

/-- Witness for claim C10 at a concrete chunk: removing the range that
covers the single typed entry leaves the typed table attached and empty,
and a subsequent typed iteration releases it. -/
theorem removeRangeTyped_keeps_table_witness :
    RememberedSet.getTypedSlotSet OLD_TO_NEW
      (RememberedSet.RemoveRangeTyped OLD_TO_NEW
        ⟨0, 524288, none, none, none, some [⟨OBJECT_SLOT, 0, 10⟩]⟩ 0 100) =
      some [] ∧
    RememberedSet.getTypedSlotSet OLD_TO_NEW
      (RememberedSet.IterateTyped OLD_TO_NEW (fun _ _ _ => KEEP_SLOT)
        (RememberedSet.setTypedSlotSet OLD_TO_NEW
          ⟨0, 524288, none, none, none, some [⟨OBJECT_SLOT, 0, 10⟩]⟩
          (some []))) = none := by
  constructor
  · exact (removeRangeTyped_keeps_table OLD_TO_NEW
      ⟨0, 524288, none, none, none, some [⟨OBJECT_SLOT, 0, 10⟩]⟩ 0 100
      [⟨OBJECT_SLOT, 0, 10⟩] rfl).2.2.1 (by decide)
  · exact (removeRangeTyped_keeps_table OLD_TO_NEW
      ⟨0, 524288, none, none, none, some [⟨OBJECT_SLOT, 0, 10⟩]⟩ 0 100
      [⟨OBJECT_SLOT, 0, 10⟩] rfl).2.2.2 (fun _ _ _ => KEEP_SLOT)

/-- Claim C7 (amended): `IterateMemoryChunks` — and through it the
heap-wide `Iterate` and `IterateTyped` — invokes the per-chunk callback
exactly on the chunks whose plain or typed slot table for this direction is
present (non-null), whether or not it still holds entries, and passes every
other chunk through untouched. -/
theorem iterateMemoryChunks_visits_present (dir : PointerDirection)
    (policy : ℕ → SlotCallbackResult)
    (tpolicy : SlotType → ℕ → ℕ → SlotCallbackResult)
    (heap : List MemoryChunk) (c : MemoryChunk) :
    (c ∈ RememberedSet.visitedChunks dir heap ↔
      c ∈ heap ∧ ((RememberedSet.getSlotSet dir c).isSome = true ∨
        (RememberedSet.getTypedSlotSet dir c).isSome = true)) ∧
    RememberedSet.IterateHeap dir policy heap =
      heap.map (fun c2 => if RememberedSet.hasRememberedSlots dir c2 then
        RememberedSet.Iterate dir policy c2 else c2) ∧
    RememberedSet.IterateTypedHeap dir tpolicy heap =
      heap.map (fun c2 => if RememberedSet.hasRememberedSlots dir c2 then
        RememberedSet.IterateTyped dir tpolicy c2 else c2) := by
  refine ⟨?_, rfl, rfl⟩
  unfold RememberedSet.visitedChunks RememberedSet.hasRememberedSlots
  rw [List.mem_filter]
  simp [Bool.or_eq_true]

/-- Witness for claim C7 at a concrete heap: a chunk with a typed table is
visited, and its membership condition evaluates as the theorem states. -/
theorem iterateMemoryChunks_visits_present_witness :
    (⟨0, 524288, none, none, none, some []⟩ : MemoryChunk) ∈
      RememberedSet.visitedChunks OLD_TO_NEW
        [⟨0, 524288, none, none, none, some []⟩,
         ⟨524288, 524288, none, none, none, none⟩] := by
  exact (iterateMemoryChunks_visits_present OLD_TO_NEW
    (fun _ => KEEP_SLOT) (fun _ _ _ => KEEP_SLOT)
    [⟨0, 524288, none, none, none, some []⟩,
     ⟨524288, 524288, none, none, none, none⟩]
    ⟨0, 524288, none, none, none, some []⟩).1.mpr
    ⟨by decide, Or.inr rfl⟩

/-- Counterexample for claim C7 as stated: a chunk whose plain slot table is
present but holds no offsets (one empty page-unit set, no typed table) is
still passed to the callback, although the claim restricts the visit to
chunks with a present AND non-empty table. -/
theorem iterateMemoryChunks_nonempty_counterexample :
    (⟨0, 524288, none, some [(∅ : Finset ℕ)], none, none⟩ : MemoryChunk) ∈
      RememberedSet.visitedChunks OLD_TO_NEW
        [⟨0, 524288, none, some [(∅ : Finset ℕ)], none, none⟩] ∧
    (⟨0, 524288, none, some [(∅ : Finset ℕ)], none, none⟩ :
      MemoryChunk).old_to_new_slots = some [(∅ : Finset ℕ)] ∧
    (⟨0, 524288, none, some [(∅ : Finset ℕ)], none, none⟩ :
      MemoryChunk).typed_old_to_new_slots = none := by
  refine ⟨?_, rfl, rfl⟩
  decide

/-- Counterexample for claim C1 as stated: a two-page-unit chunk with the
offsets 10 and 524308 (= kPageSize + 20) recorded; the range
[10, 524309) lies entirely within the chunk, starts below its end, and
contains the inserted offset 524308, yet `RemoveRange` performs no removal:
the range crosses the first page unit and trips the
`DCHECK_LE(end_offset, Page::kPageSize)` precondition (result `none`). -/
theorem removeRange_multi_page_counterexample :
    slotTableContains [({10} : Finset ℕ), {20}] 524308 ∧
    (⟨0, 1048576, some [({10} : Finset ℕ), {20}], none, none, none⟩ :
      MemoryChunk).Contains 10 ∧
    (⟨0, 1048576, some [({10} : Finset ℕ), {20}], none, none, none⟩ :
      MemoryChunk).Contains 524308 ∧
    (10 : ℕ) ≤ 524308 ∧ (524308 : ℕ) < 524309 ∧
    RememberedSet.RemoveRange OLD_TO_OLD
      ⟨0, 1048576, some [({10} : Finset ℕ), {20}], none, none, none⟩
      10 524309 = none := by
  exact ⟨by decide, ⟨by decide, by decide⟩, ⟨by decide, by decide⟩,
    by decide, by decide, by decide⟩

/-- Claim C1 (amended): for a page with an allocated slot table and a
half-open range with `start < end`, both addresses within the chunk and the
whole range inside the FIRST page unit (`end - page.address ≤ kPageSize`,
the precondition the code checks), `RemoveRange` removes exactly the
recorded offsets `o` with `start ≤ o < end` and leaves every other offset
of the chunk untouched; a range crossing a page-unit boundary is a
precondition violation, not a removal. -/
theorem removeRange_first_page_unit (dir : PointerDirection) (page : Page)
    (start end_ : ℕ) (table : SlotTable)
    (h : RememberedSet.getSlotSet dir page = some table)
    (h1 : page.address ≤ start) (h2 : start < end_)
    (h3 : end_ - page.address ≤ Page.kPageSize) :
    RememberedSet.RemoveRange dir page start end_ =
      some (RememberedSet.setSlotSet dir page (some (updateBucket table 0
        (SlotSet.removeRange (start - page.address)
          (end_ - page.address))))) ∧
    ∀ o, slotTableContains (updateBucket table 0
        (SlotSet.removeRange (start - page.address)
          (end_ - page.address))) o ↔
      (slotTableContains table o ∧
        ¬(start - page.address ≤ o ∧ o < end_ - page.address)) := by
  have hso : start - page.address < end_ - page.address := by omega
  constructor
  · unfold RememberedSet.RemoveRange
    rw [h]
    dsimp only
    rw [if_pos ⟨hso, h3⟩]
  · intro o
    unfold slotTableContains updateBucket SlotSet.removeRange
    by_cases ho : o < Page.kPageSize
    · have hdiv : o / Page.kPageSize = 0 := Nat.div_eq_of_lt ho
      have hmod : o % Page.kPageSize = o := Nat.mod_eq_of_lt ho
      rw [hdiv, hmod]
      cases table with
      | nil => simp [List.getD]
      | cons b bs => simp [List.getD, Finset.mem_filter]
    · push_neg at ho
      have hdiv : o / Page.kPageSize ≠ 0 := by
        intro hc
        have := (Nat.div_eq_zero_iff (by norm_num [Page.kPageSize] :
          0 < Page.kPageSize)).1 hc
        omega
      have hset : (table.set 0 (Finset.filter
          (fun o2 => ¬(start - page.address ≤ o2 ∧
            o2 < end_ - page.address)) (table.getD 0 ∅))).getD
          (o / Page.kPageSize) ∅ = table.getD (o / Page.kPageSize) ∅ := by
        unfold List.getD
        rw [List.get?_set_ne _ _ (Ne.symm hdiv)]
      rw [hset]
      have hno : ¬(o < end_ - page.address) := by
        have := h3
        omega
      constructor
      · intro hm
        exact ⟨hm, fun hc => hno hc.2⟩
      · intro hm
        exact hm.1

/-- Witness for claim C1 at a concrete two-page-unit chunk: removing
[15, 524288) keeps offset 10, drops offset 20, and leaves offset 524318 of
the second page unit untouched. -/
theorem removeRange_first_page_unit_witness :
    RememberedSet.RemoveRange OLD_TO_OLD
      ⟨0, 1048576, some [({10, 20} : Finset ℕ), {30}], none, none, none⟩
      15 524288 =
      some (RememberedSet.setSlotSet OLD_TO_OLD
        ⟨0, 1048576, some [({10, 20} : Finset ℕ), {30}], none, none, none⟩
        (some (updateBucket [({10, 20} : Finset ℕ), {30}] 0
          (SlotSet.removeRange 15 524288)))) ∧
    slotTableContains (updateBucket [({10, 20} : Finset ℕ), {30}] 0
      (SlotSet.removeRange 15 524288)) 10 ∧
    ¬ slotTableContains (updateBucket [({10, 20} : Finset ℕ), {30}] 0
      (SlotSet.removeRange 15 524288)) 20 ∧
    slotTableContains (updateBucket [({10, 20} : Finset ℕ), {30}] 0
      (SlotSet.removeRange 15 524288)) 524318 := by
  have h := removeRange_first_page_unit OLD_TO_OLD
    ⟨0, 1048576, some [({10, 20} : Finset ℕ), {30}], none, none, none⟩
    15 524288 [({10, 20} : Finset ℕ), {30}] rfl (by decide) (by decide)
    (by decide)
  refine ⟨h.1, ?_, ?_, ?_⟩
  · exact (h.2 10).2 ⟨by decide, by decide⟩
  · intro hc
    exact ((h.2 20).1 hc).2 ⟨by decide, by decide⟩
  · exact (h.2 524318).2 ⟨by decide, by decide⟩

/-- Counterexample for claim C4 as stated: a chunk whose slot table is
allocated but holds no offsets (after insert-then-remove) with a policy that
returns KEEP for every slot: the claim says the table remains allocated, but
the retained total is zero and `Iterate` releases it. -/
theorem iterate_all_keep_counterexample :
    (⟨0, 524288, none, some [(∅ : Finset ℕ)], none, none⟩ :
      MemoryChunk).old_to_new_slots = some [(∅ : Finset ℕ)] ∧
    RememberedSet.getSlotSet OLD_TO_NEW
      (RememberedSet.Iterate OLD_TO_NEW (fun _ => KEEP_SLOT)
        ⟨0, 524288, none, some [(∅ : Finset ℕ)], none, none⟩) = none := by
  exact ⟨rfl, by decide⟩

/-- Claim C4 (amended): for a chunk with an allocated slot table, `Iterate`
visits the slot sets of all page units, sums the retained counts, and
releases the table exactly when that total is zero; if the table holds at
least one offset and the policy returns KEEP for every slot, the table
remains allocated with all entries retained.  `IterateTyped` behaves
analogously for a typed table holding at least one entry. -/
theorem iterate_drain_and_release (dir : PointerDirection)
    (policy : ℕ → SlotCallbackResult)
    (tpolicy : SlotType → ℕ → ℕ → SlotCallbackResult)
    (chunk : MemoryChunk) :
    (∀ table, RememberedSet.getSlotSet dir chunk = some table →
      ((RememberedSet.getSlotSet dir
          (RememberedSet.Iterate dir policy chunk) = none ↔
        ((List.range chunk.pages).map (fun p =>
          (SlotSet.iterate (chunk.address + p * Page.kPageSize) policy
            (table.getD p ∅)).2)).sum = 0) ∧
       (table.length = chunk.pages →
        (∀ a, policy a = KEEP_SLOT) →
        ((List.range chunk.pages).map
          (fun p => (table.getD p ∅).card)).sum ≠ 0 →
        RememberedSet.getSlotSet dir
          (RememberedSet.Iterate dir policy chunk) = some table))) ∧
    (∀ l, RememberedSet.getTypedSlotSet dir chunk = some l →
      ((RememberedSet.getTypedSlotSet dir
          (RememberedSet.IterateTyped dir tpolicy chunk) = none ↔
        (TypedSlotSet.iterate chunk.address tpolicy l).2 = 0) ∧
       (l ≠ [] → (∀ t ha a, tpolicy t ha a = KEEP_SLOT) →
        RememberedSet.getTypedSlotSet dir
          (RememberedSet.IterateTyped dir tpolicy chunk) = some l))) := by
  constructor
  · intro table h
    constructor
    · unfold RememberedSet.Iterate
      rw [h]
      dsimp only
      by_cases hs : ((List.range chunk.pages).map (fun p =>
          (SlotSet.iterate (chunk.address + p * Page.kPageSize) policy
            (table.getD p ∅)).2)).sum = 0
      · rw [if_pos hs, getSlotSet_setSlotSet]
        exact iff_of_true rfl hs
      · rw [if_neg hs, getSlotSet_setSlotSet]
        exact iff_of_false (by simp) hs
    · intro hlen hkeep hne
      have hfix : ∀ p, SlotSet.iterate (chunk.address + p * Page.kPageSize)
          policy (table.getD p ∅) =
          (table.getD p ∅, (table.getD p ∅).card) := by
        intro p
        unfold SlotSet.iterate
        rw [Finset.filter_true_of_mem (fun o _ => hkeep _)]
      unfold RememberedSet.Iterate
      rw [h]
      dsimp only
      rw [if_neg (by simp only [hfix]; exact hne)]
      rw [getSlotSet_setSlotSet]
      congr 1
      simp only [hfix]
      rw [← hlen, map_getD_range]
  · intro l h
    constructor
    · unfold RememberedSet.IterateTyped
      rw [h]
      dsimp only
      by_cases hs : (TypedSlotSet.iterate chunk.address tpolicy l).2 = 0
      · rw [if_pos hs, getTypedSlotSet_setTypedSlotSet]
        exact iff_of_true rfl hs
      · rw [if_neg hs, getTypedSlotSet_setTypedSlotSet]
        exact iff_of_false (by simp) hs
    · intro hne hkeep
      have hfix : TypedSlotSet.iterate chunk.address tpolicy l =
          (l, l.length) := by
        unfold TypedSlotSet.iterate
        rw [List.filter_eq_self.2 (fun t _ => by rw [hkeep]; rfl)]
      unfold RememberedSet.IterateTyped
      rw [h]
      dsimp only
      rw [hfix]
      rw [if_neg (by simpa using hne)]
      rw [getTypedSlotSet_setTypedSlotSet]

/-- Witness for claim C4 at a concrete chunk holding one plain offset and
one typed entry: an all-KEEP pass retains everything and keeps both tables;
an all-REMOVE pass drains the retained totals to zero and releases both. -/
theorem iterate_drain_and_release_witness :
    RememberedSet.getSlotSet OLD_TO_OLD
      (RememberedSet.Iterate OLD_TO_OLD (fun _ => KEEP_SLOT)
        ⟨0, 524288, some [({3} : Finset ℕ)], none,
          some [⟨OBJECT_SLOT, 0, 4⟩], none⟩) =
      some [({3} : Finset ℕ)] ∧
    RememberedSet.getSlotSet OLD_TO_OLD
      (RememberedSet.Iterate OLD_TO_OLD (fun _ => REMOVE_SLOT)
        ⟨0, 524288, some [({3} : Finset ℕ)], none,
          some [⟨OBJECT_SLOT, 0, 4⟩], none⟩) = none ∧
    RememberedSet.getTypedSlotSet OLD_TO_OLD
      (RememberedSet.IterateTyped OLD_TO_OLD (fun _ _ _ => KEEP_SLOT)
        ⟨0, 524288, some [({3} : Finset ℕ)], none,
          some [⟨OBJECT_SLOT, 0, 4⟩], none⟩) =
      some [⟨OBJECT_SLOT, 0, 4⟩] ∧
    RememberedSet.getTypedSlotSet OLD_TO_OLD
      (RememberedSet.IterateTyped OLD_TO_OLD (fun _ _ _ => REMOVE_SLOT)
        ⟨0, 524288, some [({3} : Finset ℕ)], none,
          some [⟨OBJECT_SLOT, 0, 4⟩], none⟩) = none := by
  refine ⟨?_, ?_, ?_, ?_⟩
  · exact ((iterate_drain_and_release OLD_TO_OLD (fun _ => KEEP_SLOT)
      (fun _ _ _ => KEEP_SLOT)
      ⟨0, 524288, some [({3} : Finset ℕ)], none,
        some [⟨OBJECT_SLOT, 0, 4⟩], none⟩).1 [({3} : Finset ℕ)] rfl).2
      (by decide) (fun _ => rfl) (by decide)
  · exact ((iterate_drain_and_release OLD_TO_OLD (fun _ => REMOVE_SLOT)
      (fun _ _ _ => REMOVE_SLOT)
      ⟨0, 524288, some [({3} : Finset ℕ)], none,
        some [⟨OBJECT_SLOT, 0, 4⟩], none⟩).1 [({3} : Finset ℕ)] rfl).1.mpr
      (by decide)
  · exact ((iterate_drain_and_release OLD_TO_OLD (fun _ => KEEP_SLOT)
      (fun _ _ _ => KEEP_SLOT)
      ⟨0, 524288, some [({3} : Finset ℕ)], none,
        some [⟨OBJECT_SLOT, 0, 4⟩], none⟩).2 [⟨OBJECT_SLOT, 0, 4⟩] rfl).2
      (by decide) (fun _ _ _ => rfl)
  · exact ((iterate_drain_and_release OLD_TO_OLD (fun _ => REMOVE_SLOT)
      (fun _ _ _ => REMOVE_SLOT)
      ⟨0, 524288, some [({3} : Finset ℕ)], none,
        some [⟨OBJECT_SLOT, 0, 4⟩], none⟩).2 [⟨OBJECT_SLOT, 0, 4⟩]
      rfl).1.mpr (by decide)

/-- Claim C9: directional isolation.  Every operation of one direction
commutes with an arbitrary replacement of the OTHER direction's two tables:
the opposite tables come through unchanged (never modified) and the result
does not depend on them (never read).  Stated for Insert, Remove,
RemoveRange, InsertTyped, RemoveRangeTyped, Iterate, IterateTyped and the
allocate/release accessors. -/
theorem directional_isolation (dir : PointerDirection) (c : MemoryChunk)
    (v : Option SlotTable) (w : Option TypedSlotTable) (a host s e : ℕ)
    (t : SlotType) (policy : ℕ → SlotCallbackResult)
    (tpolicy : SlotType → ℕ → ℕ → SlotCallbackResult) :
    RememberedSet.Insert dir (RememberedSet.withOppositeTables dir c v w) a =
      (RememberedSet.Insert dir c a).map
        (fun x => RememberedSet.withOppositeTables dir x v w) ∧
    RememberedSet.Remove dir (RememberedSet.withOppositeTables dir c v w) a =
      (RememberedSet.Remove dir c a).map
        (fun x => RememberedSet.withOppositeTables dir x v w) ∧
    RememberedSet.RemoveRange dir (RememberedSet.withOppositeTables dir c v w)
        s e =
      (RememberedSet.RemoveRange dir c s e).map
        (fun x => RememberedSet.withOppositeTables dir x v w) ∧
    RememberedSet.InsertTyped dir (RememberedSet.withOppositeTables dir c v w)
        host t a =
      (RememberedSet.InsertTyped dir c host t a).map
        (fun x => RememberedSet.withOppositeTables dir x v w) ∧
    RememberedSet.RemoveRangeTyped dir
        (RememberedSet.withOppositeTables dir c v w) s e =
      RememberedSet.withOppositeTables dir
        (RememberedSet.RemoveRangeTyped dir c s e) v w ∧
    RememberedSet.Iterate dir policy
        (RememberedSet.withOppositeTables dir c v w) =
      RememberedSet.withOppositeTables dir
        (RememberedSet.Iterate dir policy c) v w ∧
    RememberedSet.IterateTyped dir tpolicy
        (RememberedSet.withOppositeTables dir c v w) =
      RememberedSet.withOppositeTables dir
        (RememberedSet.IterateTyped dir tpolicy c) v w ∧
    RememberedSet.allocateSlotSet dir
        (RememberedSet.withOppositeTables dir c v w) =
      RememberedSet.withOppositeTables dir
        (RememberedSet.allocateSlotSet dir c) v w ∧
    RememberedSet.allocateTypedSlotSet dir
        (RememberedSet.withOppositeTables dir c v w) =
      RememberedSet.withOppositeTables dir
        (RememberedSet.allocateTypedSlotSet dir c) v w ∧
    RememberedSet.releaseSlotSet dir
        (RememberedSet.withOppositeTables dir c v w) =
      RememberedSet.withOppositeTables dir
        (RememberedSet.releaseSlotSet dir c) v w ∧
    RememberedSet.releaseTypedSlotSet dir
        (RememberedSet.withOppositeTables dir c v w) =
      RememberedSet.withOppositeTables dir
        (RememberedSet.releaseTypedSlotSet dir c) v w := by
  obtain ⟨ad, sz, oo, o2n, to2, tn2⟩ := c
  refine ⟨?_, ?_, ?_, ?_, ?_, ?_, ?_, ?_, ?_, ?_, ?_⟩
  · cases dir <;>
      dsimp only [RememberedSet.Insert, RememberedSet.getSlotSet,
        RememberedSet.setSlotSet, RememberedSet.allocateSlotSet,
        RememberedSet.withOppositeTables, MemoryChunk.Contains,
        MemoryChunk.pages] <;>
      cases oo <;> cases o2n <;> (try split_ifs) <;> rfl
  · cases dir <;>
      dsimp only [RememberedSet.Remove, RememberedSet.getSlotSet,
        RememberedSet.setSlotSet, RememberedSet.withOppositeTables,
        MemoryChunk.Contains] <;>
      cases oo <;> cases o2n <;> (try split_ifs) <;> rfl
  · cases dir <;>
      dsimp only [RememberedSet.RemoveRange, RememberedSet.getSlotSet,
        RememberedSet.setSlotSet, RememberedSet.withOppositeTables] <;>
      cases oo <;> cases o2n <;> (try split_ifs) <;> rfl
  · cases dir <;>
      dsimp only [RememberedSet.InsertTyped, RememberedSet.getTypedSlotSet,
        RememberedSet.setTypedSlotSet,
        RememberedSet.withOppositeTables] <;>
      cases to2 <;> cases tn2 <;> (try split_ifs) <;> rfl
  · cases dir <;>
      dsimp only [RememberedSet.RemoveRangeTyped,
        RememberedSet.getTypedSlotSet, RememberedSet.setTypedSlotSet,
        RememberedSet.withOppositeTables] <;>
      cases to2 <;> cases tn2 <;> (try split_ifs) <;> rfl
  · cases dir <;>
      dsimp only [RememberedSet.Iterate, RememberedSet.getSlotSet,
        RememberedSet.setSlotSet, RememberedSet.withOppositeTables,
        MemoryChunk.pages] <;>
      cases oo <;> cases o2n <;> (try dsimp only) <;> (try split_ifs) <;> rfl
  · cases dir <;>
      dsimp only [RememberedSet.IterateTyped,
        RememberedSet.getTypedSlotSet, RememberedSet.setTypedSlotSet,
        RememberedSet.withOppositeTables] <;>
      cases to2 <;> cases tn2 <;> (try dsimp only) <;> (try split_ifs) <;> rfl
  · cases dir <;> rfl
  · cases dir <;> rfl
  · cases dir <;> rfl
  · cases dir <;> rfl

end V8
